import Mathlib

/-!
Verification development for the verthandi repository: a shallow embedding
of `verthandi/config.py`, `verthandi/clockify/client.py`,
`verthandi/clockify/typing.py` and the `get_timedelta` helper of
`verthandi/cli/main.py`, together with theorems settling the frozen
claims about the natural-language specification.

External libraries (tomlkit, pydantic BaseSettings, urllib.parse, orjson,
requests, appdirs, CPython's `str`/`timedelta` rendering) are modelled to the
extent the embedded code exercises them; the HTTP transport and the JSON
codec of `orjson` are kept as explicit function parameters, since the
repository treats them as opaque effectful dependencies.
-/

namespace Verthandi

/-- The double-quote character, kept as a named constant so that the model of
Python/TOML string handling reads uniformly. -/
def dquoteChar : Char := Char.ofNat 34

/-- The backslash character. -/
def bslashChar : Char := Char.ofNat 92

/-- The single-quote character. -/
def squoteChar : Char := Char.ofNat 39

/-- Python exception values that the embedded code can raise.  The repository
defines no exception taxonomy of its own; these constructors stand for the
builtin / library exception classes that propagate out of the glue code. -/
inductive PyError where
  | fileNotFound
  | permissionError
  | valueError (msg : String)
  | tomlDecodeError (msg : String)
  | requestsError (msg : String)
  | jsonDecodeError (msg : String)
  | keyError (key : String)
  | typeError (msg : String)
  | validationError (msg : String)
deriving DecidableEq, Repr

/-- JSON values as produced by `orjson.loads`: `None`, booleans, numbers
(modelled as integers; the claims never exercise floats), strings, lists and
dicts. -/
inductive Json where
  | null
  | bool (b : Bool)
  | num (n : Int)
  | str (s : String)
  | arr (elems : List Json)
  | obj (fields : List (String × Json))

/-- CPython `repr` of a single character inside a single-quoted string
literal (common cases; exotic control characters are kept verbatim, which the
embedded code never observes since no claim renders a non-string JSON
value). -/
def pyCharRepr (c : Char) : String :=
  if c = bslashChar then String.mk [bslashChar, bslashChar]
  else if c = squoteChar then String.mk [bslashChar, squoteChar]
  else if c = Char.ofNat 10 then String.mk [bslashChar, 'n']
  else if c = Char.ofNat 13 then String.mk [bslashChar, 'r']
  else if c = Char.ofNat 9 then String.mk [bslashChar, 't']
  else String.singleton c

/-- CPython `repr` of a string (single-quoted form). -/
def pyStrRepr (s : String) : String :=
  String.singleton squoteChar ++ String.join (s.data.map pyCharRepr)
    ++ String.singleton squoteChar

mutual

/-- CPython `repr` of a JSON-decoded value (`None`/`True`/`False`, decimal
integers, single-quoted strings, `[...]` lists, `\x7b...\x7d` dicts). -/
def Json.pyRepr : Json → String
  | .null => "None"
  | .bool true => "True"
  | .bool false => "False"
  | .num n => toString n
  | .str s => pyStrRepr s
  | .arr xs => "[" ++ pyReprList xs ++ "]"
  | .obj xs => "\x7b" ++ pyReprPairs xs ++ "\x7d"

/-- Comma-separated `repr` of list elements. -/
def pyReprList : List Json → String
  | [] => ""
  | [x] => Json.pyRepr x
  | x :: xs => Json.pyRepr x ++ ", " ++ pyReprList xs

/-- Comma-separated `repr` of dict entries. -/
def pyReprPairs : List (String × Json) → String
  | [] => ""
  | [(k, v)] => pyStrRepr k ++ ": " ++ Json.pyRepr v
  | (k, v) :: xs => pyStrRepr k ++ ": " ++ Json.pyRepr v ++ ", " ++ pyReprPairs xs

end

/-- CPython `str()` of a JSON-decoded value: a string renders as itself, any
other value as its `repr` (the f-strings of `_get_url` apply exactly this
conversion to interpolated values). -/
def Json.pyStr : Json → String
  | .str s => s
  | j => Json.pyRepr j

/-- Python dict indexing `j[key]` on a JSON-decoded value: a `KeyError` on a
missing key, a `TypeError` when the value is not a dict. -/
def Json.getItem : Json → String → Except PyError Json
  | .obj fields, key =>
    match fields.lookup key with
    | some v => .ok v
    | none => .error (.keyError key)
  | _, key => .error (.typeError ("value does not support string indexing: " ++ key))

/-- Lowercase hexadecimal digit. -/
def hexDigit (n : Nat) : Char :=
  if n < 10 then Char.ofNat (48 + n) else Char.ofNat (87 + n)

/-- Four lowercase hexadecimal digits, as in tomlkit's short unicode escape. -/
def hex4 (n : Nat) : String :=
  String.mk [hexDigit (n / 4096 % 16), hexDigit (n / 256 % 16),
             hexDigit (n / 16 % 16), hexDigit (n % 16)]

/-- TOML control characters (U+0000–U+001F and U+007F), which a basic string
must escape. -/
def isTomlControl (c : Char) : Bool := c.toNat < 32 || c.toNat = 127

/-- tomlkit's `escape_string` on one character of a basic (double-quoted)
string: compact escapes for the usual characters, `\uXXXX` for the remaining
control characters, everything else verbatim. -/
def escapeTomlChar (c : Char) : String :=
  if c = dquoteChar then String.mk [bslashChar, dquoteChar]
  else if c = bslashChar then String.mk [bslashChar, bslashChar]
  else if c = Char.ofNat 8 then String.mk [bslashChar, 'b']
  else if c = Char.ofNat 9 then String.mk [bslashChar, 't']
  else if c = Char.ofNat 10 then String.mk [bslashChar, 'n']
  else if c = Char.ofNat 12 then String.mk [bslashChar, 'f']
  else if c = Char.ofNat 13 then String.mk [bslashChar, 'r']
  else if isTomlControl c then String.mk [bslashChar, 'u'] ++ hex4 c.toNat
  else String.singleton c

/-- tomlkit's `escape_string` over a whole string. -/
def escapeToml (s : String) : String := String.join (s.data.map escapeTomlChar)

/-- Value of a hexadecimal digit, upper or lower case. -/
def hexVal (c : Char) : Option Nat :=
  if 48 ≤ c.toNat ∧ c.toNat ≤ 57 then some (c.toNat - 48)
  else if 97 ≤ c.toNat ∧ c.toNat ≤ 102 then some (c.toNat - 87)
  else if 65 ≤ c.toNat ∧ c.toNat ≤ 70 then some (c.toNat - 55)
  else none

/-- Whitespace inside a TOML line (space and tab). -/
def isWsChar (c : Char) : Bool := c = ' ' || c = Char.ofNat 9

/-- Drop leading TOML whitespace. -/
def dropWs (l : List Char) : List Char := l.dropWhile isWsChar

/-- Characters of a TOML bare key. -/
def isBareKeyChar (c : Char) : Bool := c.isAlphanum || c = '_' || c = '-'

/-- Reads the body of a TOML basic (double-quoted) string after the opening
quote, resolving the escapes that tomlkit emits; returns the decoded value
and the characters following the closing quote.  Models `tomlkit.parse`
restricted to single-line basic strings. -/
def readBasic : List Char → Except PyError (List Char × List Char)
  | [] => .error (.tomlDecodeError "unterminated basic string")
  | c :: rest =>
    if c = dquoteChar then .ok ([], rest)
    else if c = bslashChar then
      match rest with
      | [] => .error (.tomlDecodeError "unterminated escape")
      | e :: rest2 =>
        if e = dquoteChar then
          (readBasic rest2).map fun vr => (dquoteChar :: vr.1, vr.2)
        else if e = bslashChar then
          (readBasic rest2).map fun vr => (bslashChar :: vr.1, vr.2)
        else if e = 'b' then
          (readBasic rest2).map fun vr => (Char.ofNat 8 :: vr.1, vr.2)
        else if e = 't' then
          (readBasic rest2).map fun vr => (Char.ofNat 9 :: vr.1, vr.2)
        else if e = 'n' then
          (readBasic rest2).map fun vr => (Char.ofNat 10 :: vr.1, vr.2)
        else if e = 'f' then
          (readBasic rest2).map fun vr => (Char.ofNat 12 :: vr.1, vr.2)
        else if e = 'r' then
          (readBasic rest2).map fun vr => (Char.ofNat 13 :: vr.1, vr.2)
        else if e = 'u' then
          match rest2 with
          | h1 :: h2 :: h3 :: h4 :: rest3 =>
            match hexVal h1, hexVal h2, hexVal h3, hexVal h4 with
            | some a, some b, some cc, some d =>
              (readBasic rest3).map fun vr =>
                (Char.ofNat (a * 4096 + b * 256 + cc * 16 + d) :: vr.1, vr.2)
            | _, _, _, _ => .error (.tomlDecodeError "invalid unicode escape")
          | _ => .error (.tomlDecodeError "invalid unicode escape")
        else .error (.tomlDecodeError "invalid escape")
    else if isTomlControl c then .error (.tomlDecodeError "control character in string")
    else (readBasic rest).map fun vr => (c :: vr.1, vr.2)

/-- Parses one line of the settings file: blank, a comment, or
`bare-key = "basic string"` with optional trailing comment.  Subset of the
TOML grammar that the settings schema exercises; anything else is a parse
error, matching tomlkit's strictness. -/
def parseTomlLine (l : List Char) : Except PyError (Option (String × String)) :=
  let l1 := dropWs l
  match l1 with
  | [] => .ok none
  | c :: _ =>
    if c = '#' then .ok none
    else
      let key := l1.takeWhile isBareKeyChar
      let l2 := dropWs (l1.dropWhile isBareKeyChar)
      if key.isEmpty then .error (.tomlDecodeError "invalid key")
      else
        match l2 with
        | '=' :: l3 =>
          match dropWs l3 with
          | q :: body =>
            if q = dquoteChar then
              match readBasic body with
              | .error e => .error e
              | .ok (v, rest2) =>
                match dropWs rest2 with
                | [] => .ok (some (String.mk key, String.mk v))
                | t :: _ =>
                  if t = '#' then .ok (some (String.mk key, String.mk v))
                  else .error (.tomlDecodeError "trailing characters")
            else .error (.tomlDecodeError "unsupported value")
          | [] => .error (.tomlDecodeError "missing value")
        | _ => .error (.tomlDecodeError "expected key-value pair")

/-- Parses the lines of a settings file into a key-value table, rejecting
duplicate keys as tomlkit does. -/
def parseTomlLines : List (List Char) → Except PyError (List (String × String))
  | [] => .ok []
  | line :: rest =>
    match parseTomlLine line with
    | .error e => .error e
    | .ok none => parseTomlLines rest
    | .ok (some kv) =>
      match parseTomlLines rest with
      | .error e => .error e
      | .ok tbl =>
        if (tbl.lookup kv.1).isSome then .error (.tomlDecodeError "duplicate key")
        else .ok (kv :: tbl)

/-- Splitting a character list at newlines (`str.split` semantics: the
empty document is one empty line, a trailing newline yields a final empty
line). -/
def splitLines : List Char → List (List Char)
  | [] => [[]]
  | c :: rest =>
    if c = Char.ofNat 10 then [] :: splitLines rest
    else
      match splitLines rest with
      | [] => [c] :: []
      | l :: ls => (c :: l) :: ls

/-- `tomlkit.parse` on a settings document (restricted to the schema's
grammar: one `key = "string"` per line, blank lines and comments). -/
def parseToml (s : String) : Except PyError (List (String × String)) :=
  parseTomlLines (splitLines s.data)

/-- The environment as seen by pydantic `BaseSettings`: the effective values
of the `BASE_URL` and `API_KEY` environment variables (case-insensitive
lookup is abstracted into these two slots). -/
structure Env where
  base_url : Option String
  api_key : Option String
deriving DecidableEq, Repr

/-- The file system visible to `config.py`: file contents by path, plus the
set of paths whose read raises `PermissionError`. -/
structure FS where
  files : List (String × String)
  denied : List String
deriving DecidableEq, Repr

/-- `open(path).read()`: `PermissionError` on a denied path, `FileNotFoundError`
on an absent one. -/
def FS.read (fs : FS) (path : String) : Except PyError String :=
  if path ∈ fs.denied then .error .permissionError
  else
    match fs.files.lookup path with
    | some content => .ok content
    | none => .error .fileNotFound

/-- `open(path, "w")` followed by writing `content`: creates or truncates the
file. -/
def FS.write (fs : FS) (path : String) (content : String) : FS :=
  { fs with files := (path, content) :: fs.files.filter (fun pc => pc.1 ≠ path) }

/-- The platform-appropriate default settings path
`appdirs.user_config_dir("Verthandi", False) / "verthandi.toml"`
(`_get_appdirs_path` in `config.py`); the concrete directory is
platform-dependent, the model fixes one representative value. -/
def appdirsConfigPath : String := "/home/user/.config/Verthandi/verthandi.toml"

/-- The settings record of `config.py` (`VerthandiSettings`), with the same
fields and defaults. -/
structure VerthandiSettings where
  BASE_URL : String
  API_KEY : Option String
deriving DecidableEq, Repr

/-- The default `BASE_URL` declared on the settings class. -/
def defaultBaseUrl : String := "https://api.clockify.me/api/v1"

/-- `VerthandiSettings()` — pydantic `BaseSettings` construction with no
keyword arguments: each field takes its environment value when present,
otherwise the declared default. -/
def VerthandiSettings.defaultSettings (env : Env) : VerthandiSettings :=
  { BASE_URL := env.base_url.getD defaultBaseUrl
    API_KEY := env.api_key }

/-- `tomlkit.dumps` of the settings dict when both values are strings:
`key = "escaped value"` lines in field order. -/
def dumpsSettings (base key : String) : String :=
  let dq := String.singleton dquoteChar
  "BASE_URL = " ++ dq ++ escapeToml base ++ dq ++ "\n"
    ++ "API_KEY = " ++ dq ++ escapeToml key ++ dq ++ "\n"

/-- `VerthandiSettings.to_str`: `tomlkit.dumps(self.dict())`.  tomlkit has no
representation for `None` (TOML has no null), so `tomlkit.item` raises
`ValueError("Invalid type ...")` whenever `API_KEY` is `None`. -/
def VerthandiSettings.to_str (s : VerthandiSettings) : Except PyError String :=
  match s.API_KEY with
  | none => .error (.valueError "Invalid type NoneType")
  | some k => .ok (dumpsSettings s.BASE_URL k)

/-- `VerthandiSettings.save`: resolves the missing path to the appdirs
default, creates parent directories, opens the file for writing (truncating
it) and writes `self.to_str()`.  The argument of `f.write` is evaluated after
the file has been opened, so when `to_str` raises the file is left behind
empty. -/
def VerthandiSettings.save (s : VerthandiSettings) (fs : FS)
    (filepath : Option String) : Except PyError Unit × FS :=
  let path := filepath.getD appdirsConfigPath
  let fs1 := fs.write path ""
  match s.to_str with
  | .error e => (.error e, fs1)
  | .ok str => (.ok (), fs1.write path str)

/-- pydantic `parse_obj` on the parsed TOML table, i.e. `cls(**data)` for a
`BaseSettings` subclass: explicitly passed values take priority over
environment values, which take priority over the declared defaults.
pydantic v1 `BaseSettings.Config` sets `extra = Extra.forbid`, so any key
besides the declared fields raises a `ValidationError`
("extra fields not permitted"). -/
def VerthandiSettings.parse_obj (env : Env) (table : List (String × String)) :
    Except PyError VerthandiSettings :=
  if table.all (fun kv => kv.1 == "BASE_URL" || kv.1 == "API_KEY") then
    let base :=
      match table.lookup "BASE_URL" with
      | some b => b
      | none => env.base_url.getD defaultBaseUrl
    let key : Option String :=
      match table.lookup "API_KEY" with
      | some k => some k
      | none => env.api_key
    .ok { BASE_URL := base, API_KEY := key }
  else .error (.validationError "extra fields not permitted")

/-- `VerthandiSettings.load`: resolves the missing path to the appdirs
default, reads and parses the file and builds the settings from the parsed
table; on `PermissionError` or `FileNotFoundError` it constructs the default
settings, saves them with no path argument, and returns them.  Any other
failure (TOML parse error, serialization error inside `save`) propagates. -/
def VerthandiSettings.load (env : Env) (fs : FS) (filepath : Option String) :
    Except PyError VerthandiSettings × FS :=
  let path := filepath.getD appdirsConfigPath
  match fs.read path with
  | .ok content =>
    match parseToml content with
    | .error e => (.error e, fs)
    | .ok table => (VerthandiSettings.parse_obj env table, fs)
  | .error _ =>
    let s := VerthandiSettings.defaultSettings env
    match s.save fs none with
    | (.error e, fs1) => (.error e, fs1)
    | (.ok _, fs1) => (.ok s, fs1)

/-! ### `urllib.parse` model

`ClockifyClient._reports_base_url` runs the base URL through
`urlparse`/`urlunparse`, replacing `"api"` with `"reports"` in the network
location.  The functions below embed CPython's `urllib.parse` algorithms
(`urlsplit`, parameter splitting, `urlunparse`) over character lists. -/

/-- Splits a list at the first occurrence of `c`, returning the parts before
and after it (Python `str.split(c, 1)` / `str.find`). -/
def splitFirst (c : Char) : List Char → Option (List Char × List Char)
  | [] => none
  | x :: xs =>
    if x = c then some ([], xs)
    else
      match splitFirst c xs with
      | none => none
      | some (b, a) => some (x :: b, a)

/-- Splits a list at the last occurrence of `c` (Python `str.rfind`). -/
def splitLast (c : Char) : List Char → Option (List Char × List Char)
  | [] => none
  | x :: xs =>
    match splitLast c xs with
    | some (b, a) => some (x :: b, a)
    | none => if x = c then some ([], xs) else none

/-- Characters allowed in a URL scheme after the first (letters, digits,
`+`, `-`, `.`). -/
def schemeChar (c : Char) : Bool := c.isAlpha || c.isDigit || c = '+' || c = '-' || c = '.'

/-- Scheme detection of `urlsplit`: when everything before the first `:` is a
valid scheme beginning with a letter, the scheme (lowercased) is split off;
otherwise the URL is left untouched. -/
def splitScheme (url : List Char) : List Char × List Char :=
  match splitFirst ':' url with
  | some (before, after) =>
    match before with
    | [] => ([], url)
    | c0 :: _ =>
      if c0.isAlpha ∧ before.all schemeChar then (before.map Char.toLower, after)
      else ([], url)
  | none => ([], url)

/-- A character ending the network location (`/`, `?` or `#`). -/
def netlocDelim (c : Char) : Bool := c = '/' || c = '?' || c = '#'

/-- Result of `urlsplit`: scheme, network location, path, query, fragment. -/
structure SplitResult where
  scheme : List Char
  netloc : List Char
  path : List Char
  query : List Char
  fragment : List Char
deriving DecidableEq, Repr

/-- CPython `urllib.parse.urlsplit` (with `allow_fragments=True`): scheme
detection, `//`-netloc extraction with the bracket sanity check, then
fragment and query splitting. -/
def urlsplitCore (url : List Char) : Except PyError SplitResult := do
  let (scheme, url1) := splitScheme url
  let (netloc, url2) :=
    if url1.take 2 = ['/', '/'] then
      let rest := url1.drop 2
      (rest.takeWhile (fun c => !netlocDelim c), rest.dropWhile (fun c => !netlocDelim c))
    else ([], url1)
  if ('[' ∈ netloc ∧ ']' ∉ netloc) ∨ (']' ∈ netloc ∧ '[' ∉ netloc) then
    throw (.valueError "Invalid IPv6 URL")
  else
    let (url3, fragment) :=
      match splitFirst '#' url2 with
      | some (b, a) => (b, a)
      | none => (url2, [])
    let (path, query) :=
      match splitFirst '?' url3 with
      | some (b, a) => (b, a)
      | none => (url3, [])
    return ⟨scheme, netloc, path, query, fragment⟩

/-- Result of `urlparse`: `urlsplit` plus the `;parameters` of the last path
segment. -/
structure ParseResult where
  scheme : List Char
  netloc : List Char
  path : List Char
  params : List Char
  query : List Char
  fragment : List Char
deriving DecidableEq, Repr

/-- CPython `urllib.parse._splitparams`: the parameters start at the first
`;` of the last path segment. -/
def splitparams (url : List Char) : List Char × List Char :=
  if '/' ∈ url then
    match splitLast '/' url with
    | some (b, a) =>
      match splitFirst ';' a with
      | some (p, prm) => (b ++ '/' :: p, prm)
      | none => (url, [])
    | none => (url, [])
  else
    match splitFirst ';' url with
    | some (p, prm) => (p, prm)
    | none => (url, [])

/-- CPython `urllib.parse.urlparse`. -/
def urlparseCore (url : List Char) : Except PyError ParseResult :=
  match urlsplitCore url with
  | .error e => .error e
  | .ok r =>
    if ';' ∈ r.path then
      let pr := splitparams r.path
      .ok ⟨r.scheme, r.netloc, pr.1, pr.2, r.query, r.fragment⟩
    else
      .ok ⟨r.scheme, r.netloc, r.path, [], r.query, r.fragment⟩

/-- CPython `urllib.parse.urlunsplit`. -/
def urlunsplitCore (r : SplitResult) : List Char :=
  let url := r.path
  let url :=
    if r.netloc ≠ [] ∨ (url ≠ [] ∧ url.take 2 = ['/', '/']) then
      '/' :: '/' :: r.netloc ++ (if url ≠ [] ∧ url.take 1 ≠ ['/'] then '/' :: url else url)
    else url
  let url := if r.scheme ≠ [] then r.scheme ++ ':' :: url else url
  let url := if r.query ≠ [] then url ++ '?' :: r.query else url
  if r.fragment ≠ [] then url ++ '#' :: r.fragment else url

/-- CPython `urllib.parse.urlunparse`: re-attach the parameters, then
`urlunsplit`. -/
def urlunparseCore (r : ParseResult) : List Char :=
  let url := if r.params ≠ [] then r.path ++ ';' :: r.params else r.path
  urlunsplitCore ⟨r.scheme, r.netloc, url, r.query, r.fragment⟩

/-- Python `str.replace(old, new, 1)`: replace the first occurrence of `old`
(matching Python, an empty `old` matches at the start). -/
def replaceFirst (old new : List Char) : List Char → List Char
  | [] => if old.isPrefixOf [] then new else []
  | c :: rest =>
    if old.isPrefixOf (c :: rest) then new ++ (c :: rest).drop old.length
    else c :: replaceFirst old new rest

/-- `str.replace(old, new, 1)` on strings. -/
def replaceFirstS (s old new : String) : String :=
  String.mk (replaceFirst old.data new.data s.data)

/-! ### `clockify/client.py` model -/

/-- The `Defaults` TypedDict of `clockify/typing.py`, holding whatever JSON
values the user-info response carried (declared `str` there; the client
stores the raw decoded values). -/
structure Defaults where
  workspaceId : Json
  userId : Json

/-- HTTP methods used by the client. -/
inductive Method where
  | get
  | post
  | patch
deriving DecidableEq, Repr

/-- Query parameters (`params=` keyword of `requests`). -/
abbrev Params := List (String × Json)

/-- One HTTP request as handed to the `requests` session: method, URL,
optional query parameters, optional serialized body (`data=`). -/
structure HttpRequest where
  method : Method
  url : String
  params : Option Params
  body : Option String

/-- An HTTP response as far as the client reads it (`req.text`). -/
structure HttpResponse where
  text : String
deriving DecidableEq, Repr

/-- The transport underneath the `requests` session: either a response or a
raised `requests` exception.  The client installs no error handling, so
whatever this returns propagates. -/
abbrev Transport := HttpRequest → Except PyError HttpResponse

/-- `orjson.loads`, kept as a parameter: a JSON value or a raised decode
error. -/
abbrev JsonLoads := String → Except PyError Json

/-- `orjson.dumps(body, option=orjson.OPT_UTC_Z)`, kept as a parameter
(`None` serializes to `"null"` in orjson, hence the `Option` domain). -/
abbrev JsonDumps := Option Json → String

/-- The headers installed on the `requests.Session` at construction:
`X-Api-Key` is `api_key or ""` (Python `or`: `None` and the empty string are
falsy), `Content-Type` is fixed.  The session's own default headers are not
modelled. -/
def sessionHeaders (api_key : Option String) : List (String × String) :=
  [("X-Api-Key", match api_key with
                 | none => ""
                 | some s => if s = "" then "" else s),
   ("Content-Type", "application/json")]

/-- The `ClockifyClient` object: session headers, base URL, and the default
workspace/user identifiers captured at construction. -/
structure ClockifyClient where
  headers : List (String × String)
  base_url : String
  defaults : Defaults

/-- `ClockifyClient._reports_base_url`: parse the base URL, replace `"api"`
with `"reports"` (first occurrence) in the network location, unparse. -/
def ClockifyClient.reportsBaseUrl (c : ClockifyClient) : Except PyError String :=
  match urlparseCore c.base_url.data with
  | .error e => .error e
  | .ok r =>
    .ok (String.mk (urlunparseCore
      { r with netloc := replaceFirst "api".data "reports".data r.netloc }))

/-- The `url_type` literal of `_get_url`. -/
inductive UrlType where
  | report
  | workspace
  | workspace_user
deriving DecidableEq, Repr

/-- `ClockifyClient._get_url`: report URLs from `_reports_base_url`,
workspace(-user) URLs by f-string interpolation with the cached defaults
substituted for omitted identifiers, and plain `base + "/" + endpoint`
otherwise.  String interpolation applies Python `str()` to the interpolated
value. -/
def ClockifyClient.getUrl (c : ClockifyClient) (endpoint : String)
    (urlType : Option UrlType) (workspaceId userId : Option String) :
    Except PyError String :=
  match urlType with
  | some .report =>
    match c.reportsBaseUrl with
    | .error e => .error e
    | .ok rbase => .ok (rbase ++ "/" ++ endpoint)
  | some .workspace =>
    let wid : String :=
      match workspaceId with
      | none => c.defaults.workspaceId.pyStr
      | some w => w
    .ok (c.base_url ++ "/workspaces/" ++ wid ++ "/" ++ endpoint)
  | some .workspace_user =>
    let wid : String :=
      match workspaceId with
      | none => c.defaults.workspaceId.pyStr
      | some w => w
    let uid : String :=
      match userId with
      | none => c.defaults.userId.pyStr
      | some u => u
    .ok (c.base_url ++ "/workspaces/" ++ wid ++ "/user/" ++ uid ++ "/" ++ endpoint)
  | none => .ok (c.base_url ++ "/" ++ endpoint)

/-- `ClockifyClient.get_user`: GET on the plain `user` endpoint, decoding the
response text; returns the issued requests alongside the outcome, and
propagates transport and decode errors unchanged. -/
def ClockifyClient.get_user (send : Transport) (loads : JsonLoads)
    (c : ClockifyClient) : List HttpRequest × Except PyError Json :=
  match c.getUrl "user" none none none with
  | .error e => ([], .error e)
  | .ok url =>
    let req : HttpRequest := ⟨.get, url, none, none⟩
    ([req],
      match send req with
      | .error e => .error e
      | .ok r => loads r.text)

/-- `ClockifyClient.list_timeentry`: GET on the workspace-user-scoped
`time-entries` endpoint with the given query parameters. -/
def ClockifyClient.list_timeentry (send : Transport) (loads : JsonLoads)
    (c : ClockifyClient) (workspace_id user_id : Option String)
    (params : Option Params) : List HttpRequest × Except PyError Json :=
  match c.getUrl "time-entries" (some .workspace_user) workspace_id user_id with
  | .error e => ([], .error e)
  | .ok url =>
    let req : HttpRequest := ⟨.get, url, params, none⟩
    ([req],
      match send req with
      | .error e => .error e
      | .ok r => loads r.text)

/-- `ClockifyClient.start_timeentry`: POST on the workspace-scoped
`time-entries` endpoint with the serialized body. -/
def ClockifyClient.start_timeentry (send : Transport) (loads : JsonLoads)
    (dumps : JsonDumps) (c : ClockifyClient) (workspace_id : Option String)
    (body : Option Json) (params : Option Params) :
    List HttpRequest × Except PyError Json :=
  match c.getUrl "time-entries" (some .workspace) workspace_id none with
  | .error e => ([], .error e)
  | .ok url =>
    let req : HttpRequest := ⟨.post, url, params, some (dumps body)⟩
    ([req],
      match send req with
      | .error e => .error e
      | .ok r => loads r.text)

/-- `ClockifyClient.stop_timeentry`: PATCH on the workspace-user-scoped
`time-entries` endpoint with the serialized body. -/
def ClockifyClient.stop_timeentry (send : Transport) (loads : JsonLoads)
    (dumps : JsonDumps) (c : ClockifyClient)
    (workspace_id user_id : Option String) (body : Option Json)
    (params : Option Params) : List HttpRequest × Except PyError Json :=
  match c.getUrl "time-entries" (some .workspace_user) workspace_id user_id with
  | .error e => ([], .error e)
  | .ok url =>
    let req : HttpRequest := ⟨.patch, url, params, some (dumps body)⟩
    ([req],
      match send req with
      | .error e => .error e
      | .ok r => loads r.text)

/-- The client object just before the user-info fetch of `__init__`: base
URL resolved against the settings, session headers installed, `_defaults`
not yet assigned (the placeholder mirrors the absent Python attribute, which
the plain-URL branch used by `get_user` never reads). -/
def ClockifyClient.initClient0 (api_key : Option String) (base_url : Option String)
    (stgs : VerthandiSettings) : ClockifyClient :=
  { headers := sessionHeaders api_key
    base_url :=
      match base_url with
      | none => stgs.BASE_URL
      | some b => b
    defaults := ⟨Json.null, Json.null⟩ }

/-- `ClockifyClient.__init__`: resolve the base URL against the settings,
install the session headers, fetch the current user once (via `get_user`),
and cache `user_data["defaultWorkspace"]` and `user_data["id"]` as the
defaults.  Returns the constructed client and the requests issued during
construction. -/
def ClockifyClient.init (api_key : Option String) (base_url : Option String)
    (stgs : VerthandiSettings) (send : Transport) (loads : JsonLoads) :
    Except PyError (ClockifyClient × List HttpRequest) :=
  let c0 := ClockifyClient.initClient0 api_key base_url stgs
  let (reqs, res) := c0.get_user send loads
  match res with
  | .error e => .error e
  | .ok user_data =>
    match user_data.getItem "defaultWorkspace" with
    | .error e => .error e
    | .ok dw =>
      match user_data.getItem "id" with
      | .error e => .error e
      | .ok uid => .ok ({ c0 with defaults := ⟨dw, uid⟩ }, reqs)

/-- One client method call, for stating invariants over arbitrary sequences
of operations. -/
inductive ClientOp where
  | getUser
  | listTimeentry (workspace_id user_id : Option String) (params : Option Params)
  | startTimeentry (workspace_id : Option String) (body : Option Json) (params : Option Params)
  | stopTimeentry (workspace_id user_id : Option String) (body : Option Json) (params : Option Params)

/-- Runs one client method; the resulting client reflects the object state
after the call (the method bodies assign to no attribute, so it is the same
object state). -/
def runOp (send : Transport) (loads : JsonLoads) (dumps : JsonDumps)
    (c : ClockifyClient) : ClientOp → ClockifyClient × List HttpRequest × Except PyError Json
  | .getUser => (c, c.get_user send loads)
  | .listTimeentry w u p => (c, c.list_timeentry send loads w u p)
  | .startTimeentry w b p => (c, c.start_timeentry send loads dumps w b p)
  | .stopTimeentry w u b p => (c, c.stop_timeentry send loads dumps w u b p)

/-- Runs a sequence of client methods, threading the object state and
collecting the issued requests. -/
def runOps (send : Transport) (loads : JsonLoads) (dumps : JsonDumps)
    (c : ClockifyClient) : List ClientOp → ClockifyClient × List HttpRequest
  | [] => (c, [])
  | op :: rest =>
    let (c1, reqs, _) := runOp send loads dumps c op
    let (c2, reqs2) := runOps send loads dumps c1 rest
    (c2, reqs ++ reqs2)

/-! ### `cli/main.py` model -/

/-- `"%0wd"` rendering of the integers produced by timedelta normalization:
the decimal rendering left-padded with zeros to width `w`. -/
def padZeros (w : Nat) (n : Int) : String :=
  let s := toString n
  String.mk (List.replicate (w - s.length) '0') ++ s

/-- CPython `datetime.timedelta.__str__` on a delta of `totalMicros`
microseconds: the delta is normalized to `days` (floor), seconds in
`[0, 86400)` and microseconds in `[0, 10^6)`, rendered as
`[D day(s), ]H:MM:SS[.ffffff]`. -/
def timedeltaStr (totalMicros : Int) : String :=
  let days := totalMicros / 86400000000
  let rem := totalMicros % 86400000000
  let secs := rem / 1000000
  let micros := rem % 1000000
  let mm := secs / 60
  let ss := secs % 60
  let hh := mm / 60
  let mm2 := mm % 60
  let s := toString hh ++ ":" ++ padZeros 2 mm2 ++ ":" ++ padZeros 2 ss
  let s :=
    if days ≠ 0 then
      toString days ++ (if days = 1 ∨ days = -1 then " day, " else " days, ") ++ s
    else s
  if micros ≠ 0 then s ++ "." ++ padZeros 6 micros else s

/-- `get_timedelta` of `cli/main.py`: `str(now - dt_parse(dts_1))`, where
`now` is the current UTC time with `microsecond=0` (hence a whole number of
seconds) and the parsed start instant is an arbitrary timezone-aware instant
(in microseconds). -/
def get_timedelta (nowSec : Int) (startMicros : Int) : String :=
  timedeltaStr (nowSec * 1000000 - startMicros)

/-! ### Spec-side definitions and well-formedness validators -/

/-- Rendering of an elapsed number of seconds as `hours:minutes:seconds`,
following the spec's words (hours unpadded, minutes and seconds two-digit). -/
def specHMS (n : Nat) : String :=
  toString (n / 3600) ++ ":" ++ padZeros 2 ((n % 3600 / 60 : Nat) : Int)
    ++ ":" ++ padZeros 2 ((n % 60 : Nat) : Int)

/-- Well-formedness of a URL scheme for the report-URL theorem: nonempty,
all lowercase ASCII letters (hence untouched by the lowercasing of
`urlsplit`). -/
def schemeOk (s : String) : Bool :=
  !s.data.isEmpty && s.data.all (fun c => c.isAlpha && c.isLower)
    && (s.data.map Char.toLower == s.data)

/-- Well-formedness of a network location: nonempty and free of the
delimiters and brackets that `urlsplit` treats specially. -/
def netlocOk (s : String) : Bool :=
  !s.data.isEmpty && s.data.all (fun c => !netlocDelim c && c ≠ '[' && c ≠ ']')

/-- Well-formedness of a URL path: empty or `/`-initial, free of `?` and `#`,
and with no dangling empty `;`-parameter in the last segment (the one shape
that `urlparse`/`urlunparse` does not round-trip). -/
def pathOk (p : String) : Bool :=
  (p.data.isEmpty || p.data.take 1 == ['/'])
    && p.data.all (fun c => c ≠ '?' && c ≠ '#')
    && (!(splitparams p.data).2.isEmpty || (splitparams p.data).1 == p.data)

/-! ### Concrete fixtures for witness instantiations -/

/-- A user-info JSON document with string `defaultWorkspace` and `id`. -/
def userJsonW : Json := .obj [("defaultWorkspace", .str "WS1"), ("id", .str "USER1")]

/-- A JSON decoder returning `userJsonW` for every body. -/
def loadsW : JsonLoads := fun _ => .ok userJsonW

/-- A transport answering every request with an empty-list body. -/
def sendOkW : Transport := fun _ => .ok ⟨"[]"⟩

/-- A transport raising a connection error on every request. -/
def sendErrW : Transport := fun _ => .error (.requestsError "connection refused")

/-- A JSON encoder fixture. -/
def dumpsW : JsonDumps := fun _ => "null"

/-- A concrete client with string defaults, as produced by a successful
construction against `sendOkW`/`loadsW`. -/
def clientW : ClockifyClient :=
  { headers := sessionHeaders (some "KEY")
    base_url := "https://api.example.com/v1"
    defaults := ⟨.str "WS1", .str "USER1"⟩ }

/-! ### Theorems -/

/-- Filtering out entries at a different key does not change a lookup. -/
theorem lookup_filter_ne (p q : String) (l : List (String × String)) (h : p ≠ q) :
    (l.filter (fun pc => pc.1 ≠ q)).lookup p = l.lookup p := by
  induction l with
  | nil => rfl
  | cons hd tl ih =>
    obtain ⟨k, v⟩ := hd
    simp only [ne_eq, decide_not] at ih ⊢
    by_cases hq : k = q
    · subst hq
      have hpk : (p == k) = false := by simpa using h
      simp only [List.filter_cons, decide_True, Bool.not_true, Bool.false_eq_true,
        if_false, ih]
      simp [List.lookup, hpk]
    · have hdq : (decide ((k, v).1 = q)) = false := by simpa using hq
      simp only [List.filter_cons, hdq, Bool.not_false, if_true]
      cases hpk : (p == k) <;> simp [List.lookup, hpk, ih]

/-- `FS.write` at one path does not affect lookups at another. -/
theorem FS.lookup_write_ne (fs : FS) (p q v : String) (h : p ≠ q) :
    ((fs.write q v).files.lookup p) = fs.files.lookup p := by
  have hpk : (p == q) = false := by simpa using h
  simp only [FS.write, List.lookup, hpk]
  exact lookup_filter_ne p q fs.files h

/-- Inversion of a successful `ClockifyClient.init`: the user-info fetch
succeeded, both fields were present, and the client is the pre-client with
the fetched defaults installed. -/
theorem init_ok_inversion (api_key base_url : Option String)
    (stgs : VerthandiSettings) (send : Transport) (loads : JsonLoads)
    (c : ClockifyClient) (reqs : List HttpRequest)
    (hinit : ClockifyClient.init api_key base_url stgs send loads = .ok (c, reqs)) :
    ∃ user dw uid,
      ((ClockifyClient.initClient0 api_key base_url stgs).get_user send loads).2 = .ok user
      ∧ user.getItem "defaultWorkspace" = .ok dw
      ∧ user.getItem "id" = .ok uid
      ∧ c = { ClockifyClient.initClient0 api_key base_url stgs with defaults := ⟨dw, uid⟩ }
      ∧ reqs = ((ClockifyClient.initClient0 api_key base_url stgs).get_user send loads).1 := by
  simp only [ClockifyClient.init] at hinit
  split at hinit
  · exact absurd hinit (by simp)
  · rename_i user huser
    split at hinit
    · exact absurd hinit (by simp)
    · rename_i dw hdw
      split at hinit
      · exact absurd hinit (by simp)
      · rename_i uid huid
        simp only [Except.ok.injEq, Prod.mk.injEq] at hinit
        obtain ⟨hc, hreqs⟩ := hinit
        exact ⟨user, dw, uid, huser, hdw, huid, hc.symm, hreqs.symm⟩

/-- C1: `_get_url` returns `base + "/" + e` for a plain endpoint,
`base + "/workspaces/" + W + "/" + e` for a workspace endpoint and
`base + "/workspaces/" + W + "/user/" + U + "/" + e` for a workspace-user
endpoint; omitted identifiers are filled from the client's cached defaults;
with base `https://api.example.com/v1` the plain URL for `user` is
`https://api.example.com/v1/user` and the workspace URL for `x` under `W` is
`https://api.example.com/v1/workspaces/W/x`. -/
theorem c1_get_url (c : ClockifyClient) (e W U : String) :
    (c.getUrl e none none none = .ok (c.base_url ++ "/" ++ e))
  ∧ (c.getUrl e (some .workspace) (some W) none
       = .ok (c.base_url ++ "/workspaces/" ++ W ++ "/" ++ e))
  ∧ (c.getUrl e (some .workspace_user) (some W) (some U)
       = .ok (c.base_url ++ "/workspaces/" ++ W ++ "/user/" ++ U ++ "/" ++ e))
  ∧ (c.defaults.workspaceId = .str W →
       c.getUrl e (some .workspace) none none
         = .ok (c.base_url ++ "/workspaces/" ++ W ++ "/" ++ e))
  ∧ (c.defaults.workspaceId = .str W → c.defaults.userId = .str U →
       c.getUrl e (some .workspace_user) none none
         = .ok (c.base_url ++ "/workspaces/" ++ W ++ "/user/" ++ U ++ "/" ++ e))
  ∧ (c.base_url = "https://api.example.com/v1" →
       c.getUrl "user" none none none = .ok "https://api.example.com/v1/user")
  ∧ (c.base_url = "https://api.example.com/v1" →
       c.getUrl "x" (some .workspace) (some "W") none
         = .ok "https://api.example.com/v1/workspaces/W/x") := by
  refine ⟨rfl, rfl, rfl, ?_, ?_, ?_, ?_⟩
  · intro h
    simp [ClockifyClient.getUrl, h, Json.pyStr]
  · intro h1 h2
    simp [ClockifyClient.getUrl, h1, h2, Json.pyStr]
  · intro h
    simp only [ClockifyClient.getUrl, h]
    rfl
  · intro h
    simp only [ClockifyClient.getUrl, h]
    rfl

/-- Witness for C1: the omitted-workspace branch at a concrete client. -/
theorem c1_witness :
    clientW.getUrl "entries" (some .workspace) none none
      = .ok "https://api.example.com/v1/workspaces/WS1/entries" :=
  (c1_get_url clientW "entries" "WS1" "USER1").2.2.2.1 rfl

/-- C3 (code bug): with no settings file and no environment overrides,
`load` does not return persisted defaults — serializing the default settings
raises `ValueError` inside `save` (tomlkit cannot represent the `None`
`API_KEY`), the exception propagates out of `load`, and only an empty file
is left at the default path; a second `load` then parses that empty file and
returns default settings without ever having persisted them. -/
theorem c3_missing_file_crashes :
    (VerthandiSettings.load ⟨none, none⟩ ⟨[], []⟩ none
       = (.error (.valueError "Invalid type NoneType"),
          ⟨[(appdirsConfigPath, "")], []⟩))
  ∧ ((VerthandiSettings.load ⟨none, none⟩ ⟨[(appdirsConfigPath, "")], []⟩ none).1
       = .ok (VerthandiSettings.defaultSettings ⟨none, none⟩)) :=
  ⟨rfl, rfl⟩

/-- C4 (code bug): `to_str` raises `ValueError` whenever `API_KEY` is
`None` — in particular on the default settings — so the claimed round-trip
through parsing cannot even produce a string there; with a string `API_KEY`
the serialization succeeds. -/
theorem c4_to_str_none (b k : String) :
    (VerthandiSettings.to_str ⟨b, none⟩ = .error (.valueError "Invalid type NoneType"))
  ∧ (VerthandiSettings.to_str ⟨b, some k⟩ = .ok (dumpsSettings b k))
  ∧ (VerthandiSettings.to_str (VerthandiSettings.defaultSettings ⟨none, none⟩)
       = .error (.valueError "Invalid type NoneType")) :=
  ⟨rfl, rfl, rfl⟩

/-- C9: the session headers always carry `X-Api-Key`; with `api_key` equal
to `None` or the empty string its value is the empty string, and a
constructed client's session headers are exactly these. -/
theorem c9_api_key_header (api_key : Option String) :
    (((sessionHeaders api_key).lookup "X-Api-Key").isSome = true)
  ∧ ((sessionHeaders none).lookup "X-Api-Key" = some "")
  ∧ ((sessionHeaders (some "")).lookup "X-Api-Key" = some "")
  ∧ (∀ (base_url : Option String) (stgs : VerthandiSettings) (send : Transport)
       (loads : JsonLoads) (c : ClockifyClient) (reqs : List HttpRequest),
       ClockifyClient.init api_key base_url stgs send loads = .ok (c, reqs) →
       c.headers = sessionHeaders api_key) := by
  refine ⟨rfl, rfl, rfl, ?_⟩
  intro base_url stgs send loads c reqs hinit
  obtain ⟨user, dw, uid, -, -, -, hc, -⟩ :=
    init_ok_inversion api_key base_url stgs send loads c reqs hinit
  rw [hc]
  rfl

/-- Witness for C9: a concrete successful construction has exactly the
constructed session headers. -/
theorem c9_witness :
    ((sessionHeaders (some "")).lookup "X-Api-Key" = some "")
      ∧ ClockifyClient.init (some "KEY") none
          ⟨"https://api.example.com/v1", some "KEY"⟩ sendOkW loadsW
          = .ok (clientW, [⟨.get, "https://api.example.com/v1" ++ "/" ++ "user", none, none⟩])
      ∧ clientW.headers = sessionHeaders (some "KEY") :=
  ⟨(c9_api_key_header (some "")).2.2.1, rfl,
   (c9_api_key_header (some "KEY")).2.2.2 none
     ⟨"https://api.example.com/v1", some "KEY"⟩ sendOkW loadsW clientW
     [⟨.get, "https://api.example.com/v1" ++ "/" ++ "user", none, none⟩] rfl⟩

/-- C5: loading a settings file whose contents match the settings schema —
it parses to a table with no keys besides `BASE_URL`/`API_KEY` (pydantic
`BaseSettings` forbids extra fields) and a `BASE_URL` entry — yields a
settings object whose fields equal the file's values (with both keys
present the environment is irrelevant; with `API_KEY` absent — TOML has no
null — and no environment override it is `None`). -/
theorem c5_load_wellformed (env : Env) (fs : FS) (filepath : Option String)
    (content : String) (table : List (String × String)) (b k : String)
    (hread : fs.read (filepath.getD appdirsConfigPath) = .ok content)
    (hparse : parseToml content = .ok table)
    (hschema : table.all (fun kv => kv.1 == "BASE_URL" || kv.1 == "API_KEY") = true)
    (hb : table.lookup "BASE_URL" = some b) :
    (table.lookup "API_KEY" = some k →
      VerthandiSettings.load env fs filepath = (.ok ⟨b, some k⟩, fs))
  ∧ (table.lookup "API_KEY" = none → env.api_key = none →
      VerthandiSettings.load env fs filepath = (.ok ⟨b, none⟩, fs)) := by
  constructor
  · intro hk
    simp only [VerthandiSettings.load, hread, hparse, VerthandiSettings.parse_obj,
      hschema, if_true, ite_true, hb, hk]
  · intro hk he
    simp only [VerthandiSettings.load, hread, hparse, VerthandiSettings.parse_obj,
      hschema, if_true, ite_true, hb, hk, he]

/-- Witness for C5: a concrete well-formed settings file. -/
theorem c5_witness :
    VerthandiSettings.load ⟨none, none⟩
      ⟨[("/cfg/settings.toml",
         "BASE_URL = \"https://api.example.com/v1\"\nAPI_KEY = \"SECRET\"\n")], []⟩
      (some "/cfg/settings.toml")
      = (.ok ⟨"https://api.example.com/v1", some "SECRET"⟩,
         ⟨[("/cfg/settings.toml",
            "BASE_URL = \"https://api.example.com/v1\"\nAPI_KEY = \"SECRET\"\n")], []⟩) :=
  (c5_load_wellformed ⟨none, none⟩
    ⟨[("/cfg/settings.toml",
       "BASE_URL = \"https://api.example.com/v1\"\nAPI_KEY = \"SECRET\"\n")], []⟩
    (some "/cfg/settings.toml")
    "BASE_URL = \"https://api.example.com/v1\"\nAPI_KEY = \"SECRET\"\n"
    [("BASE_URL", "https://api.example.com/v1"), ("API_KEY", "SECRET")]
    "https://api.example.com/v1" "SECRET" rfl rfl rfl rfl).1 rfl

/-- C10 counterexample: with an explicit missing filepath and no environment
`API_KEY`, the fallback default settings are not persisted anywhere — `load`
raises `ValueError` (their serialization is impossible) and only an empty
file is left at the platform-default path. -/
theorem c10_counterexample :
    ((VerthandiSettings.load ⟨none, none⟩ ⟨[], []⟩ (some "/data/custom.toml")).1
       = .error (.valueError "Invalid type NoneType"))
  ∧ ((VerthandiSettings.load ⟨none, none⟩ ⟨[], []⟩ (some "/data/custom.toml")).2
       = ⟨[(appdirsConfigPath, "")], []⟩)
  ∧ (VerthandiSettings.to_str (VerthandiSettings.defaultSettings ⟨none, none⟩)
       = .error (.valueError "Invalid type NoneType")) :=
  ⟨rfl, rfl, rfl⟩

/-- C10 amended: when `load` is called with an explicit missing/unreadable
filepath, `save` is invoked with no path argument, so everything written
goes to the platform-default config path and the given filepath is left
uncreated; the fallback settings are actually persisted there exactly when
their serialization succeeds, i.e. when the environment supplies an
`API_KEY`. -/
theorem c10_save_goes_to_default_path (env : Env) (fs : FS) (p k : String)
    (hp : p ≠ appdirsConfigPath)
    (hread : ∃ e, fs.read p = .error e)
    (hk : env.api_key = some k) :
    (VerthandiSettings.load env fs (some p)
       = (.ok (VerthandiSettings.defaultSettings env),
          (fs.write appdirsConfigPath "").write appdirsConfigPath
            (dumpsSettings (env.base_url.getD defaultBaseUrl) k)))
  ∧ ((VerthandiSettings.load env fs (some p)).2.files.lookup p = fs.files.lookup p) := by
  obtain ⟨e, he⟩ := hread
  have h1 : VerthandiSettings.load env fs (some p)
      = (.ok (VerthandiSettings.defaultSettings env),
         (fs.write appdirsConfigPath "").write appdirsConfigPath
           (dumpsSettings (env.base_url.getD defaultBaseUrl) k)) := by
    simp only [VerthandiSettings.load, Option.getD_some, Option.getD_none, he,
      VerthandiSettings.save, VerthandiSettings.defaultSettings,
      VerthandiSettings.to_str, hk]
  refine ⟨h1, ?_⟩
  rw [h1]
  rw [FS.lookup_write_ne _ p appdirsConfigPath _ hp]
  exact FS.lookup_write_ne fs p appdirsConfigPath "" hp

/-- Witness for C10's amended theorem: a concrete missing explicit path with
an environment-supplied key. -/
theorem c10_witness :
    VerthandiSettings.load ⟨none, some "K"⟩ ⟨[], []⟩ (some "/data/custom.toml")
      = (.ok (VerthandiSettings.defaultSettings ⟨none, some "K"⟩),
         ((⟨[], []⟩ : FS).write appdirsConfigPath "").write appdirsConfigPath
           (dumpsSettings defaultBaseUrl "K")) :=
  (c10_save_goes_to_default_path ⟨none, some "K"⟩ ⟨[], []⟩ "/data/custom.toml" "K"
    (by decide) ⟨.fileNotFound, rfl⟩ rfl).1

/-- Running one client method leaves the client object unchanged (none of
the method bodies assigns an attribute). -/
theorem runOp_fst (send : Transport) (loads : JsonLoads) (dumps : JsonDumps)
    (c : ClockifyClient) (op : ClientOp) :
    (runOp send loads dumps c op).1 = c := by
  cases op <;> rfl

/-- Running any sequence of client methods leaves the client object
unchanged. -/
theorem runOps_fst (send : Transport) (loads : JsonLoads) (dumps : JsonDumps)
    (c : ClockifyClient) (ops : List ClientOp) :
    (runOps send loads dumps c ops).1 = c := by
  induction ops with
  | nil => rfl
  | cons op rest ih => cases op <;> simpa [runOps, runOp] using ih

/-- C7: a successful construction issues exactly one HTTP request (the
user-info GET), caches the response's `defaultWorkspace` and `id` as the
defaults, no sequence of subsequent operations modifies the client object,
and a later call with omitted identifiers builds its URL from exactly the
construction-captured defaults. -/
theorem c7_defaults_invariant (api_key base_url : Option String)
    (stgs : VerthandiSettings) (send : Transport) (loads : JsonLoads)
    (c : ClockifyClient) (reqs : List HttpRequest)
    (hinit : ClockifyClient.init api_key base_url stgs send loads = .ok (c, reqs)) :
    (reqs = [⟨.get,
       (ClockifyClient.initClient0 api_key base_url stgs).base_url ++ "/" ++ "user",
       none, none⟩])
  ∧ (∃ user,
       ((ClockifyClient.initClient0 api_key base_url stgs).get_user send loads).2
         = .ok user
       ∧ user.getItem "defaultWorkspace" = .ok c.defaults.workspaceId
       ∧ user.getItem "id" = .ok c.defaults.userId)
  ∧ (∀ (send2 : Transport) (loads2 : JsonLoads) (dumps2 : JsonDumps)
        (ops : List ClientOp),
       (runOps send2 loads2 dumps2 c ops).1 = c)
  ∧ (∀ (send2 : Transport) (loads2 : JsonLoads) (dumps2 : JsonDumps)
        (ops : List ClientOp) (params : Option Params),
       ((runOps send2 loads2 dumps2 c ops).1.list_timeentry send2 loads2
           none none params).1
         = [⟨.get, c.base_url ++ "/workspaces/" ++ c.defaults.workspaceId.pyStr
              ++ "/user/" ++ c.defaults.userId.pyStr ++ "/" ++ "time-entries",
             params, none⟩]) := by
  obtain ⟨user, dw, uid, huser, hdw, huid, hc, hreqs⟩ :=
    init_ok_inversion api_key base_url stgs send loads c reqs hinit
  refine ⟨?_, ⟨user, huser, ?_, ?_⟩, ?_, ?_⟩
  · rw [hreqs]; rfl
  · rw [hc]; exact hdw
  · rw [hc]; exact huid
  · intro send2 loads2 dumps2 ops
    exact runOps_fst send2 loads2 dumps2 c ops
  · intro send2 loads2 dumps2 ops params
    rw [runOps_fst]
    rfl

/-- Witness for C7: the invariant at a concrete successful construction. -/
theorem c7_witness :
    (runOps sendErrW loadsW dumpsW clientW
        [ClientOp.getUser, ClientOp.listTimeentry none none none]).1 = clientW :=
  (c7_defaults_invariant (some "KEY") none ⟨"https://api.example.com/v1", some "KEY"⟩
      sendOkW loadsW clientW
      [⟨.get, "https://api.example.com/v1" ++ "/" ++ "user", none, none⟩]
      rfl).2.2.1
    sendErrW loadsW dumpsW [ClientOp.getUser, ClientOp.listTimeentry none none none]

/-- C8: each of the four client operations issues exactly one HTTP request,
with the claimed method and URL shape (GET plain `user`; GET
workspace-user-scoped `time-entries` with the given query parameters; POST
workspace-scoped `time-entries`; PATCH workspace-user-scoped
`time-entries`), decodes the response body with the JSON decoder, and
translates no errors locally: a transport error or a decode error is
returned exactly as raised. -/
theorem c8_single_call (send : Transport) (loads : JsonLoads) (dumps : JsonDumps)
    (c : ClockifyClient) (w u : Option String) (body : Option Json)
    (params : Option Params) :
    ((c.get_user send loads).1
       = [⟨.get, c.base_url ++ "/" ++ "user", none, none⟩])
  ∧ (∀ e, send ⟨.get, c.base_url ++ "/" ++ "user", none, none⟩ = .error e →
       (c.get_user send loads).2 = .error e)
  ∧ (∀ r, send ⟨.get, c.base_url ++ "/" ++ "user", none, none⟩ = .ok r →
       (c.get_user send loads).2 = loads r.text)
  ∧ ((c.list_timeentry send loads w u params).1
       = [⟨.get, c.base_url ++ "/workspaces/"
            ++ (match w with
                | none => c.defaults.workspaceId.pyStr
                | some ws => ws)
            ++ "/user/"
            ++ (match u with
                | none => c.defaults.userId.pyStr
                | some us => us)
            ++ "/" ++ "time-entries", params, none⟩])
  ∧ (∀ e, send ⟨.get, c.base_url ++ "/workspaces/"
            ++ (match w with
                | none => c.defaults.workspaceId.pyStr
                | some ws => ws)
            ++ "/user/"
            ++ (match u with
                | none => c.defaults.userId.pyStr
                | some us => us)
            ++ "/" ++ "time-entries", params, none⟩ = .error e →
       (c.list_timeentry send loads w u params).2 = .error e)
  ∧ (∀ r, send ⟨.get, c.base_url ++ "/workspaces/"
            ++ (match w with
                | none => c.defaults.workspaceId.pyStr
                | some ws => ws)
            ++ "/user/"
            ++ (match u with
                | none => c.defaults.userId.pyStr
                | some us => us)
            ++ "/" ++ "time-entries", params, none⟩ = .ok r →
       (c.list_timeentry send loads w u params).2 = loads r.text)
  ∧ ((c.start_timeentry send loads dumps w body params).1
       = [⟨.post, c.base_url ++ "/workspaces/"
            ++ (match w with
                | none => c.defaults.workspaceId.pyStr
                | some ws => ws)
            ++ "/" ++ "time-entries", params, some (dumps body)⟩])
  ∧ (∀ e, send ⟨.post, c.base_url ++ "/workspaces/"
            ++ (match w with
                | none => c.defaults.workspaceId.pyStr
                | some ws => ws)
            ++ "/" ++ "time-entries", params, some (dumps body)⟩ = .error e →
       (c.start_timeentry send loads dumps w body params).2 = .error e)
  ∧ (∀ r, send ⟨.post, c.base_url ++ "/workspaces/"
            ++ (match w with
                | none => c.defaults.workspaceId.pyStr
                | some ws => ws)
            ++ "/" ++ "time-entries", params, some (dumps body)⟩ = .ok r →
       (c.start_timeentry send loads dumps w body params).2 = loads r.text)
  ∧ ((c.stop_timeentry send loads dumps w u body params).1
       = [⟨.patch, c.base_url ++ "/workspaces/"
            ++ (match w with
                | none => c.defaults.workspaceId.pyStr
                | some ws => ws)
            ++ "/user/"
            ++ (match u with
                | none => c.defaults.userId.pyStr
                | some us => us)
            ++ "/" ++ "time-entries", params, some (dumps body)⟩])
  ∧ (∀ e, send ⟨.patch, c.base_url ++ "/workspaces/"
            ++ (match w with
                | none => c.defaults.workspaceId.pyStr
                | some ws => ws)
            ++ "/user/"
            ++ (match u with
                | none => c.defaults.userId.pyStr
                | some us => us)
            ++ "/" ++ "time-entries", params, some (dumps body)⟩ = .error e →
       (c.stop_timeentry send loads dumps w u body params).2 = .error e)
  ∧ (∀ r, send ⟨.patch, c.base_url ++ "/workspaces/"
            ++ (match w with
                | none => c.defaults.workspaceId.pyStr
                | some ws => ws)
            ++ "/user/"
            ++ (match u with
                | none => c.defaults.userId.pyStr
                | some us => us)
            ++ "/" ++ "time-entries", params, some (dumps body)⟩ = .ok r →
       (c.stop_timeentry send loads dumps w u body params).2 = loads r.text) := by
  refine ⟨rfl, ?_, ?_, rfl, ?_, ?_, rfl, ?_, ?_, rfl, ?_, ?_⟩
  · intro e he
    simp only [ClockifyClient.get_user, ClockifyClient.getUrl, he]
  · intro r hr
    simp only [ClockifyClient.get_user, ClockifyClient.getUrl, hr]
  · intro e he
    simp only [ClockifyClient.list_timeentry, ClockifyClient.getUrl, he]
  · intro r hr
    simp only [ClockifyClient.list_timeentry, ClockifyClient.getUrl, hr]
  · intro e he
    simp only [ClockifyClient.start_timeentry, ClockifyClient.getUrl, he]
  · intro r hr
    simp only [ClockifyClient.start_timeentry, ClockifyClient.getUrl, hr]
  · intro e he
    simp only [ClockifyClient.stop_timeentry, ClockifyClient.getUrl, he]
  · intro r hr
    simp only [ClockifyClient.stop_timeentry, ClockifyClient.getUrl, hr]

/-- Witness for C8: a concrete successful GET and a concrete transport
failure propagated unchanged. -/
theorem c8_witness :
    ((clientW.get_user sendOkW loadsW).2 = loadsW "[]")
  ∧ ((clientW.list_timeentry sendErrW loadsW none none none).2
       = .error (.requestsError "connection refused")) :=
  ⟨(c8_single_call sendOkW loadsW dumpsW clientW none none none none).2.2.1
      ⟨"[]"⟩ rfl,
   (c8_single_call sendErrW loadsW dumpsW clientW none none none none).2.2.2.2.1
      (.requestsError "connection refused") rfl⟩

/-- `toString` of a natural number cast to `Int` is its natural rendering. -/
theorem toString_intCast (k : Nat) : toString ((k : Int)) = toString k := rfl

/-- C6: the elapsed string of the `list` command is `str(now - start)`; for a
start exactly 1 hour 2 minutes 3 seconds before now this is `1:02:03`, and in
general, for an in-progress entry younger than a day, it is the elapsed
seconds formatted as `hours:minutes:seconds`. -/
theorem c6_elapsed_format :
    (∀ nowSec startMicros : Int,
       nowSec * 1000000 - startMicros = 3723 * 1000000 →
       get_timedelta nowSec startMicros = "1:02:03")
  ∧ (∀ (nowSec startMicros : Int) (n : Nat), n < 86400 →
       nowSec * 1000000 - startMicros = (n : Int) * 1000000 →
       get_timedelta nowSec startMicros = specHMS n) := by
  have general : ∀ (nowSec startMicros : Int) (n : Nat), n < 86400 →
      nowSec * 1000000 - startMicros = (n : Int) * 1000000 →
      get_timedelta nowSec startMicros = specHMS n := by
    intro now st n hn hd
    have h1 : ((n : Int) * 1000000) / 86400000000 = 0 := by omega
    have h2 : ((n : Int) * 1000000) % 86400000000 = (n : Int) * 1000000 := by omega
    have h3 : ((n : Int) * 1000000) / 1000000 = (n : Int) := by omega
    have h4 : ((n : Int) * 1000000) % 1000000 = 0 := by omega
    have h5 : (n : Int) / 60 = ((n / 60 : Nat) : Int) := by omega
    have h6 : (n : Int) % 60 = ((n % 60 : Nat) : Int) := by omega
    have h7 : ((n / 60 : Nat) : Int) / 60 = ((n / 3600 : Nat) : Int) := by omega
    have h8 : ((n / 60 : Nat) : Int) % 60 = ((n % 3600 / 60 : Nat) : Int) := by omega
    simp only [get_timedelta, timedeltaStr, hd, h1, h2, h3, h4, h5, h6, h7, h8]
    simp only [ne_eq, not_true_eq_false, if_false, ite_false, if_neg,
      not_false_eq_true]
    simp only [specHMS, toString_intCast]
  refine ⟨?_, general⟩
  intro now st hd
  have : get_timedelta now st = specHMS 3723 := by
    refine general now st 3723 (by norm_num) ?_
    rw [hd]
    norm_num
  rw [this]
  rfl

/-- Witness for C6: a start instant exactly 3723 seconds before now. -/
theorem c6_witness : get_timedelta 3723 0 = "1:02:03" :=
  c6_elapsed_format.1 3723 0 (by norm_num)

/-- Strings with the same character data are equal. -/
theorem string_data_ext (s t : String) (h : s.data = t.data) : s = t := by
  cases s
  cases t
  simp only at h
  rw [h]

/-- `splitFirst` at the first marker occurrence. -/
theorem splitFirst_append (c : Char) (s r : List Char) (h : c ∉ s) :
    splitFirst c (s ++ c :: r) = some (s, r) := by
  induction s with
  | nil => simp [splitFirst]
  | cons x xs ih =>
    have hxc : ¬x = c := fun he => h (he ▸ List.mem_cons_self x xs)
    rw [List.cons_append, splitFirst, if_neg hxc,
      ih (fun hm => h (List.mem_cons_of_mem x hm))]

/-- `splitFirst` misses when the marker is absent. -/
theorem splitFirst_eq_none (c : Char) (l : List Char) (h : c ∉ l) :
    splitFirst c l = none := by
  induction l with
  | nil => rfl
  | cons x xs ih =>
    have hxc : ¬x = c := fun he => h (he ▸ List.mem_cons_self x xs)
    rw [splitFirst, if_neg hxc, ih (fun hm => h (List.mem_cons_of_mem x hm))]

/-- A successful `splitFirst` reassembles to the original list. -/
theorem splitFirst_join (c : Char) (l : List Char) :
    ∀ b a, splitFirst c l = some (b, a) → b ++ c :: a = l := by
  induction l with
  | nil => intro b a h; simp [splitFirst] at h
  | cons x xs ih =>
    intro b a h
    rw [splitFirst] at h
    by_cases hx : x = c
    · rw [if_pos hx] at h
      simp only [Option.some.injEq, Prod.mk.injEq] at h
      obtain ⟨hb, ha⟩ := h
      subst hb; subst ha; subst hx
      rfl
    · rw [if_neg hx] at h
      cases hsf : splitFirst c xs with
      | none => rw [hsf] at h; simp at h
      | some p =>
        obtain ⟨b', a'⟩ := p
        rw [hsf] at h
        simp only [Option.some.injEq, Prod.mk.injEq] at h
        obtain ⟨hb, ha⟩ := h
        subst hb; subst ha
        rw [List.cons_append, ih b' a' hsf]

/-- A successful `splitLast` reassembles to the original list. -/
theorem splitLast_join (c : Char) (l : List Char) :
    ∀ b a, splitLast c l = some (b, a) → b ++ c :: a = l := by
  induction l with
  | nil => intro b a h; simp [splitLast] at h
  | cons x xs ih =>
    intro b a h
    rw [splitLast] at h
    cases hsl : splitLast c xs with
    | some p =>
      obtain ⟨b', a'⟩ := p
      rw [hsl] at h
      simp only [Option.some.injEq, Prod.mk.injEq] at h
      obtain ⟨hb, ha⟩ := h
      subst hb; subst ha
      rw [List.cons_append, ih b' a' hsl]
    | none =>
      rw [hsl] at h
      by_cases hx : x = c
      · rw [if_pos hx] at h
        simp only [Option.some.injEq, Prod.mk.injEq] at h
        obtain ⟨hb, ha⟩ := h
        subst hb; subst ha; subst hx
        rfl
      · rw [if_neg hx] at h
        simp at h

/-- A non-dropped parameter split reassembles to the original path. -/
theorem splitparams_join (u : List Char) (h : (splitparams u).2 ≠ []) :
    (splitparams u).1 ++ ';' :: (splitparams u).2 = u := by
  unfold splitparams at h ⊢
  by_cases hs : '/' ∈ u
  · rw [if_pos hs] at h ⊢
    cases hsl : splitLast '/' u with
    | none => simp [hsl] at h
    | some p =>
      obtain ⟨b, a⟩ := p
      dsimp only
      cases hsf : splitFirst ';' a with
      | none => simp [hsl, hsf] at h
      | some q =>
        obtain ⟨pp, prm⟩ := q
        dsimp only
        rw [List.append_assoc, List.cons_append,
          splitFirst_join ';' a pp prm hsf, splitLast_join '/' u b a hsl]
  · rw [if_neg hs] at h ⊢
    cases hsf : splitFirst ';' u with
    | none => simp [hsf] at h
    | some q =>
      obtain ⟨pp, prm⟩ := q
      dsimp only
      exact splitFirst_join ';' u pp prm hsf

/-- `takeWhile`/`dropWhile` over a satisfied prefix followed by a failing (or
empty) suffix. -/
theorem span_append (p : Char → Bool) (l1 l2 : List Char)
    (h1 : ∀ c ∈ l1, p c = true)
    (h2 : l2 = [] ∨ ∃ c0 t, l2 = c0 :: t ∧ p c0 = false) :
    (l1 ++ l2).takeWhile p = l1 ∧ (l1 ++ l2).dropWhile p = l2 := by
  induction l1 with
  | nil =>
    rcases h2 with rfl | ⟨c0, t, rfl, hc0⟩
    · exact ⟨rfl, rfl⟩
    · simp [List.takeWhile, List.dropWhile, hc0]
  | cons x xs ih =>
    have hx : p x = true := h1 x (List.mem_cons_self x xs)
    have ih2 := ih (fun c hc => h1 c (List.mem_cons_of_mem x hc))
    refine ⟨?_, ?_⟩
    · rw [List.cons_append, List.takeWhile_cons_of_pos hx, ih2.1]
    · rw [List.cons_append, List.dropWhile_cons_of_pos hx, ih2.2]

/-- `replaceFirst` with a nonempty replacement preserves nonemptiness. -/
theorem replaceFirst_ne_nil (old new l : List Char) (hl : l ≠ []) (hn : new ≠ []) :
    replaceFirst old new l ≠ [] := by
  cases l with
  | nil => exact absurd rfl hl
  | cons c rest =>
    rw [replaceFirst]
    by_cases hp : old.isPrefixOf (c :: rest)
    · rw [if_pos hp]
      intro he
      exact hn (List.append_eq_nil.mp he).1
    · rw [if_neg hp]
      exact List.cons_ne_nil c _

/-- `splitScheme` on a well-formed `scheme:rest` URL. -/
theorem splitScheme_wf (scheme rest : List Char)
    (h1 : scheme ≠ [])
    (h2 : ∀ c ∈ scheme, c.isAlpha = true ∧ c.isLower = true)
    (h3 : scheme.map Char.toLower = scheme) :
    splitScheme (scheme ++ ':' :: rest) = (scheme, rest) := by
  have hcn : ':' ∉ scheme := by
    intro hm
    have := (h2 _ hm).1
    exact absurd this (by decide)
  rw [splitScheme, splitFirst_append _ _ _ hcn]
  cases scheme with
  | nil => exact absurd rfl h1
  | cons c0 s' =>
    have hall : (c0 :: s').all schemeChar = true := by
      rw [List.all_eq_true]
      intro c hc
      have := (h2 c hc).1
      simp [schemeChar, this]
    have hc0 : c0.isAlpha = true := (h2 c0 (List.mem_cons_self c0 s')).1
    simp only
    rw [if_pos ⟨hc0, hall⟩, h3]

/-- `urlsplit` on a well-formed `scheme://netloc/path` URL. -/
theorem urlsplit_wf (scheme netloc path : List Char)
    (hs1 : scheme ≠ [])
    (hs2 : ∀ c ∈ scheme, c.isAlpha = true ∧ c.isLower = true)
    (hs3 : scheme.map Char.toLower = scheme)
    (_hn1 : netloc ≠ [])
    (hn2 : ∀ c ∈ netloc, netlocDelim c = false ∧ c ≠ '[' ∧ c ≠ ']')
    (hp1 : path = [] ∨ path.take 1 = ['/'])
    (hp2 : ∀ c ∈ path, c ≠ '?' ∧ c ≠ '#') :
    urlsplitCore (scheme ++ ':' :: '/' :: '/' :: (netloc ++ path))
      = .ok ⟨scheme, netloc, path, [], []⟩ := by
  have hspan := span_append (fun c => !netlocDelim c) netloc path
    (fun c hc => by simp [(hn2 c hc).1])
    (by
      rcases hp1 with rfl | ht
      · exact Or.inl rfl
      · cases path with
        | nil => exact Or.inl rfl
        | cons c0 t =>
          refine Or.inr ⟨c0, t, rfl, ?_⟩
          simp only [List.take, List.cons.injEq] at ht
          rw [ht.1]
          rfl)
  have hbr : ¬(('[' ∈ netloc ∧ ']' ∉ netloc) ∨ (']' ∈ netloc ∧ '[' ∉ netloc)) := by
    rintro (⟨hm, -⟩ | ⟨hm, -⟩)
    · exact (hn2 _ hm).2.1 rfl
    · exact (hn2 _ hm).2.2 rfl
  have hfrag : splitFirst '#' path = none :=
    splitFirst_eq_none '#' path (fun hm => (hp2 _ hm).2 rfl)
  have hquery : splitFirst '?' path = none :=
    splitFirst_eq_none '?' path (fun hm => (hp2 _ hm).1 rfl)
  unfold urlsplitCore
  rw [splitScheme_wf scheme _ hs1 hs2 hs3]
  simp only [List.take, List.drop, hspan.1, hspan.2, if_true, ite_true,
    hfrag, hquery]
  rw [if_neg hbr]
  rfl

/-- `urlparse` on a well-formed `scheme://netloc/path` URL: the path splits
into path-proper and parameters, which reassemble to the original path
(under the no-dangling-`;` condition). -/
theorem urlparse_wf (scheme netloc path : List Char)
    (hs1 : scheme ≠ [])
    (hs2 : ∀ c ∈ scheme, c.isAlpha = true ∧ c.isLower = true)
    (hs3 : scheme.map Char.toLower = scheme)
    (hn1 : netloc ≠ [])
    (hn2 : ∀ c ∈ netloc, netlocDelim c = false ∧ c ≠ '[' ∧ c ≠ ']')
    (hp1 : path = [] ∨ path.take 1 = ['/'])
    (hp2 : ∀ c ∈ path, c ≠ '?' ∧ c ≠ '#')
    (hp3 : (splitparams path).2 = [] → (splitparams path).1 = path) :
    ∃ p' prm,
      urlparseCore (scheme ++ ':' :: '/' :: '/' :: (netloc ++ path))
          = .ok ⟨scheme, netloc, p', prm, [], []⟩
      ∧ (if prm = [] then p' = path else p' ++ ';' :: prm = path) := by
  unfold urlparseCore
  rw [urlsplit_wf scheme netloc path hs1 hs2 hs3 hn1 hn2 hp1 hp2]
  by_cases hsc : ';' ∈ path
  · rcases hsp : splitparams path with ⟨p', prm⟩
    refine ⟨p', prm, ?_, ?_⟩
    · dsimp only
      rw [if_pos hsc, hsp]
    · rw [hsp] at hp3
      by_cases hpr : prm = []
      · rw [if_pos hpr]
        exact hp3 hpr
      · rw [if_neg hpr]
        have := splitparams_join path (by rw [hsp]; exact hpr)
        rw [hsp] at this
        exact this
  · refine ⟨path, [], ?_, by simp⟩
    dsimp only
    rw [if_neg hsc]

/-- `urlunparse` on a parse result whose parameters reassemble to the
original path: it reproduces `scheme://netloc` followed by that path. -/
theorem urlunparse_wf (scheme N p' prm path : List Char)
    (hN : N ≠ []) (hs1 : scheme ≠ [])
    (hp1 : path = [] ∨ path.take 1 = ['/'])
    (hjoin : if prm = [] then p' = path else p' ++ ';' :: prm = path) :
    urlunparseCore ⟨scheme, N, p', prm, [], []⟩
      = scheme ++ ':' :: '/' :: '/' :: (N ++ path) := by
  have hurl : (if prm ≠ [] then p' ++ ';' :: prm else p') = path := by
    by_cases hpr : prm = []
    · rw [if_neg (by simpa using hpr)]
      rw [if_pos hpr] at hjoin
      exact hjoin
    · rw [if_pos hpr]
      rw [if_neg hpr] at hjoin
      exact hjoin
  have hinner : (if path ≠ [] ∧ path.take 1 ≠ ['/'] then '/' :: path else path)
      = path := by
    rcases hp1 with rfl | ht
    · rw [if_neg]
      simp
    · rw [if_neg]
      intro hc
      exact hc.2 ht
  simp only [urlunparseCore, urlunsplitCore]
  rw [hurl, if_pos (Or.inl hN), hinner, if_pos hs1,
    if_neg (by simp : ¬([] : List Char) ≠ []),
    if_neg (by simp : ¬([] : List Char) ≠ [])]
  simp [List.append_assoc]

/-- `_reports_base_url` on a well-formed `scheme://netloc/path` base URL:
`"api"` is replaced by `"reports"` (first occurrence) in the network
location only, and the path component is reproduced unchanged. -/
theorem reportsBaseUrl_wf (scheme netloc path : String) (c : ClockifyClient)
    (hs : schemeOk scheme = true) (hn : netlocOk netloc = true)
    (hp : pathOk path = true)
    (hb : c.base_url = scheme ++ "://" ++ netloc ++ path) :
    c.reportsBaseUrl
      = .ok (scheme ++ "://" ++ replaceFirstS netloc "api" "reports" ++ path) := by
  have hs' := hs
  simp only [schemeOk, Bool.and_eq_true, Bool.not_eq_true', List.all_eq_true,
    beq_iff_eq] at hs'
  obtain ⟨⟨hsE, hsAll⟩, hs3⟩ := hs'
  have hs1 : scheme.data ≠ [] := by
    intro he
    rw [he] at hsE
    simp at hsE
  have hs2 : ∀ ch ∈ scheme.data, ch.isAlpha = true ∧ ch.isLower = true := by
    intro ch hm
    simpa [Bool.and_eq_true] using hsAll ch hm
  have hn' := hn
  simp only [netlocOk, Bool.and_eq_true, Bool.not_eq_true', List.all_eq_true] at hn'
  obtain ⟨hnE, hnAll⟩ := hn'
  have hn1 : netloc.data ≠ [] := by
    intro he
    rw [he] at hnE
    simp at hnE
  have hn2 : ∀ ch ∈ netloc.data, netlocDelim ch = false ∧ ch ≠ '[' ∧ ch ≠ ']' := by
    intro ch hm
    have := hnAll ch hm
    simp only [Bool.and_eq_true, Bool.not_eq_true', decide_eq_true_eq] at this
    exact ⟨this.1.1, this.1.2, this.2⟩
  have hp' := hp
  simp only [pathOk, Bool.and_eq_true, Bool.or_eq_true, Bool.not_eq_true',
    List.all_eq_true, beq_iff_eq] at hp'
  obtain ⟨⟨hpHead, hpAll⟩, hpPrm⟩ := hp'
  have hp1 : path.data = [] ∨ path.data.take 1 = ['/'] := by
    rcases hpHead with hE | hT
    · left
      exact List.isEmpty_iff.mp hE
    · right
      exact hT
  have hp2 : ∀ ch ∈ path.data, ch ≠ '?' ∧ ch ≠ '#' := by
    intro ch hm
    have := hpAll ch hm
    simp only [Bool.and_eq_true, decide_eq_true_eq] at this
    exact this
  have hp3 : (splitparams path.data).2 = [] → (splitparams path.data).1 = path.data := by
    intro h2
    rcases hpPrm with hA | hB
    · rw [h2] at hA
      simp at hA
    · exact hB
  have hcol : ("://" : String).data = [':', '/', '/'] := rfl
  have hdata : c.base_url.data
      = scheme.data ++ ':' :: '/' :: '/' :: (netloc.data ++ path.data) := by
    rw [hb]
    simp only [String.data_append, hcol]
    simp [List.append_assoc]
  unfold ClockifyClient.reportsBaseUrl
  rw [hdata]
  obtain ⟨p', prm, hparse, hjoin⟩ :=
    urlparse_wf scheme.data netloc.data path.data hs1 hs2 hs3 hn1 hn2 hp1 hp2 hp3
  rw [hparse]
  dsimp only
  rw [urlunparse_wf scheme.data (replaceFirst "api".data "reports".data netloc.data)
    p' prm path.data (replaceFirst_ne_nil _ _ _ hn1 (by decide)) hs1 hp1 hjoin]
  congr 1
  apply string_data_ext
  simp only [String.data_append, hcol, replaceFirstS]
  simp [List.append_assoc]

/-- C2 (amended): for a base URL of the standard form `scheme://netloc/path`
(lowercase letter scheme, nonempty delimiter-free netloc, absolute or empty
path without query/fragment markers and without a dangling empty `;`
parameter), the report URL for endpoint `e` is the base URL with `"api"`
replaced by `"reports"` (first occurrence) in the network location only,
followed by `"/" + e`; in particular the path component is never altered. -/
theorem c2_report_url (scheme netloc path endpoint : String) (c : ClockifyClient)
    (hs : schemeOk scheme = true) (hn : netlocOk netloc = true)
    (hp : pathOk path = true)
    (hb : c.base_url = scheme ++ "://" ++ netloc ++ path) :
    c.getUrl endpoint (some .report) none none
      = .ok (scheme ++ "://" ++ replaceFirstS netloc "api" "reports" ++ path
             ++ "/" ++ endpoint) := by
  have h := reportsBaseUrl_wf scheme netloc path c hs hn hp hb
  simp only [ClockifyClient.getUrl, h]

/-- C2 counterexample: on a base URL whose path carries a dangling empty
`;` parameter, `urlparse`/`urlunparse` drops the `;`, so the report URL is
not the base URL with only the netloc replaced — its path component was
altered. -/
theorem c2_counterexample :
    (ClockifyClient.getUrl
        ⟨sessionHeaders none, "https://api.example.com/v1;", ⟨Json.null, Json.null⟩⟩
        "x" (some .report) none none
      = .ok "https://reports.example.com/v1/x")
  ∧ ("https://reports.example.com/v1/x" : String)
      ≠ "https://reports.example.com/v1;/x" :=
  ⟨rfl, by decide⟩

/-- Witness for C2: the canonical example base URL. -/
theorem c2_witness :
    clientW.getUrl "x" (some .report) none none
      = .ok ("https" ++ "://" ++ replaceFirstS "api.example.com" "api" "reports"
             ++ "/v1" ++ "/" ++ "x") :=
  c2_report_url "https" "api.example.com" "/v1" "x" clientW rfl rfl rfl rfl

end Verthandi
